import Mathlib

/-!
Verification development for the dashcam-sync repository.

Shallow embedding of the Python sources:
  service.py          (voltage-based orchestrator, watchdog, power reader)
  camera_service.py   (percentage-based orchestrator, power reader)
  mount_helper.py     (mount manager, file selector, stage-and-copy)
  uploader.py         (rsync uploader with retries and backoff)
  device_detector.py  (device wait with polling)
  src/e2e_test_single_file.py (upload-then-delete staging flow)

External effects (subprocess results, the filesystem, the mount table,
time) are passed in as explicit parameters; functions that emit effects
are modelled as functions returning traces of actions.  Machine floats
of the source (voltages, modification times, delays) are modelled as
rationals; the integer strings produced by the external tools are exact
in both representations.
-/

/-! ## Uploader (uploader.py) -/

/-- Configuration dictionary for the uploader; `none` models an absent key
of the Python dict `upload_cfg`. -/
structure UploadCfg where
  method : Option String
  host : Option String
  user : Option String
  port : Option Nat
  dest_path : Option String
  ssh_key : Option String
deriving DecidableEq, Repr

/-- Outcome of one `subprocess.run(final_cmd, check=True)` invocation:
normal exit, `CalledProcessError`, or any other exception. -/
inductive RunOutcome
  | ok
  | calledProcessError
  | otherError
deriving DecidableEq, Repr

/-- Truthiness of the `dest` value in `if not dest:` — a missing key or an
empty string is falsy. -/
def destIsSet : Option String → Bool
  | none => false
  | some s => s ≠ ""

/-- Embeds `build_rsync_command` of uploader.py.  `sshKeyOnDisk` stands for
`os.path.exists(ssh_key) and os.path.isfile(ssh_key)`. -/
def build_rsync_command (source dest : String) (sshKeyOnDisk : Bool)
    (ssh_key host user : Option String) (port : Option Nat)
    (compress : Bool := true) : List String :=
  let cmd := ["rsync", "-a", "--checksum", "--partial", "--inplace"]
  let cmd := if compress then cmd ++ ["-z"] else cmd
  let isRemote := match host with
    | some h => h ≠ "localhost" && h ≠ "127.0.0.1"
    | none => false
  let src := source ++ "/"
  if isRemote then
    let h := host.getD ""
    let sshParts := ["ssh", "-o", "StrictHostKeyChecking=no", "-o", "UserKnownHostsFile=/dev/null"]
    let sshParts := match ssh_key with
      | some k => if sshKeyOnDisk then sshParts ++ ["-i", k] else sshParts
      | none => sshParts
    let sshParts := match port with
      | some p => sshParts ++ ["-p", toString p]
      | none => sshParts
    let cmd := cmd ++ ["-e", String.intercalate " " sshParts]
    let target := match user with
      | some u => u ++ "@" ++ h ++ ":" ++ dest
      | none => h ++ ":" ++ dest
    cmd ++ [src, target]
  else
    cmd ++ [src, dest]

/-- Result of the retry loop of `upload_dir`: final return value, number of
`subprocess.run` invocations, and the argument of each `time.sleep` call in
order. -/
structure AttemptOut where
  success : Bool
  invocations : Nat
  sleeps : List ℚ
deriving DecidableEq, Repr

/-- Embeds the `while attempt <= retries` loop of `upload_dir`.  `runs k` is
the outcome of the transfer command on attempt number `k` (1-based, as in the
source after `attempt += 1`).  `delay` is the current backoff delay. -/
def uploadAttempts (runs : Nat → RunOutcome) (dry_run : Bool) (retries : Nat)
    (backoff_factor delay : ℚ) (attempt : Nat) : AttemptOut :=
  if _h : attempt ≤ retries then
    if dry_run then ⟨true, 0, []⟩
    else
      match runs (attempt + 1) with
      | .ok => ⟨true, 1, []⟩
      | .otherError => ⟨false, 1, []⟩
      | .calledProcessError =>
        if attempt + 1 > retries then ⟨false, 1, []⟩
        else
          let rest := uploadAttempts runs dry_run retries backoff_factor
            (delay * backoff_factor) (attempt + 1)
          ⟨rest.success, rest.invocations + 1, delay :: rest.sleeps⟩
  else ⟨false, 0, []⟩
termination_by retries + 1 - attempt

/-- Full result of `upload_dir`: return value, the final command if one was
built (`none` when a validation check returned early), invocation count and
sleep trace. -/
structure UploadResult where
  success : Bool
  cmd : Option (List String)
  invocations : Nat
  sleeps : List ℚ
deriving DecidableEq, Repr

/-- Embeds `upload_dir` of uploader.py.  `stagingIsDir` stands for
`os.path.isdir(staging_dir)`; `euidIsRoot` for `os.geteuid() == 0`;
`sudoUser` for `os.environ.get(SUDO_USER)`; `runs` for the per-attempt
outcome of the transfer command. -/
def upload_dir (stagingIsDir : Bool) (staging_dir : String) (upload_cfg : UploadCfg)
    (dry_run : Bool) (retries : Nat) (backoff_factor initial_delay : ℚ)
    (run_as_user : Option String) (euidIsRoot : Bool) (sudoUser : Option String)
    (sshKeyOnDisk : Bool) (runs : Nat → RunOutcome) : UploadResult :=
  if ¬ stagingIsDir then ⟨false, none, 0, []⟩
  else if upload_cfg.method.getD "rsync" ≠ "rsync" then ⟨false, none, 0, []⟩
  else if ¬ destIsSet upload_cfg.dest_path then ⟨false, none, 0, []⟩
  else
    let cmd := build_rsync_command staging_dir (upload_cfg.dest_path.getD "")
      sshKeyOnDisk upload_cfg.ssh_key upload_cfg.host upload_cfg.user upload_cfg.port
    let runAs := match run_as_user with
      | some u => some u
      | none => if euidIsRoot then sudoUser else none
    let final_cmd := match runAs with
      | some u => ["sudo", "-u", u, "--"] ++ cmd
      | none => cmd
    let a := uploadAttempts runs dry_run retries backoff_factor initial_delay 0
    ⟨a.success, some final_cmd, a.invocations, a.sleeps⟩

/-- List of the delays slept by a permanently failing retry loop:
`d, d*b, d*b^2, ...` (`n` entries). -/
def geomList (d b : ℚ) : Nat → List ℚ
  | 0 => []
  | n + 1 => d :: geomList (d * b) b n

/-! ## File Selector (mount_helper.select_files_to_copy) -/

/-- One candidate tuple `(rel, st.st_size, st.st_mtime)` produced by the
`os.walk` enumeration in `select_files_to_copy`. -/
structure FileEntry where
  rel : String
  size : Nat
  mtime : ℚ
deriving DecidableEq, Repr

/-- Last path component, as `os.path.basename` on the slash-separated
paths this program uses. -/
def basename (p : String) : String :=
  ((p.splitOn "/").getLast?).getD p

/-- The extension filter of `select_files_to_copy`: in Python,
`if extensions:` skips the filter for `None` and for an empty list. -/
def extMatches (extensions : Option (List String)) (fn : String) : Bool :=
  match extensions with
  | none => true
  | some es => if es.isEmpty then true else es.any (fun e => fn.toLower.endsWith e)

/-- Comparator for `candidates.sort(key=lambda x: x[2], reverse=True)`:
stable descending sort by modification time. -/
def newestLe (a b : FileEntry) : Bool := decide (b.mtime ≤ a.mtime)

/-- Comparator for `candidates.sort(key=lambda x: x[2])`. -/
def oldestLe (a b : FileEntry) : Bool := decide (a.mtime ≤ b.mtime)

/-- Comparator for `candidates.sort(key=lambda x: x[1], reverse=True)`. -/
def largestLe (a b : FileEntry) : Bool := decide (b.size ≤ a.size)

/-- The strategy dispatch of `select_files_to_copy`: newest / oldest /
largest, anything else logs a warning and sorts as `newest`.  Python
`list.sort` is a stable sort, modelled by `List.mergeSort`. -/
def sortCandidates (strategy : String) (cs : List FileEntry) : List FileEntry :=
  if strategy = "newest" then cs.mergeSort newestLe
  else if strategy = "oldest" then cs.mergeSort oldestLe
  else if strategy = "largest" then cs.mergeSort largestLe
  else cs.mergeSort newestLe

/-- The `max_files` guard `len(selected) >= max_files` (break). -/
def atLimit (max_files : Option Nat) (cnt : Nat) : Bool :=
  match max_files with
  | some mf => mf ≤ cnt
  | none => false

/-- The `max_bytes` guard `(total_bytes + size) > max_bytes` (continue). -/
def overBytes (max_bytes : Option Nat) (tot size : Nat) : Bool :=
  match max_bytes with
  | some mb => mb < tot + size
  | none => false

/-- The greedy acceptance loop of `select_files_to_copy`, with the running
`len(selected)` and `total_bytes` made explicit. -/
def greedySelect (max_files max_bytes : Option Nat) :
    List FileEntry → Nat → Nat → List FileEntry
  | [], _, _ => []
  | c :: cs, cnt, tot =>
    if atLimit max_files cnt then []
    else if overBytes max_bytes tot c.size then
      greedySelect max_files max_bytes cs cnt tot
    else
      c :: greedySelect max_files max_bytes cs (cnt + 1) (tot + c.size)

/-- The selected candidate tuples of `select_files_to_copy`, given the
candidate enumeration (the product of the `os.walk` loop) as input. -/
def selectEntries (candidates : List FileEntry) (max_files max_bytes : Option Nat)
    (strategy : String) (extensions : Option (List String)) : List FileEntry :=
  let cands := candidates.filter (fun c => extMatches extensions (basename c.rel))
  if cands.isEmpty then []
  else greedySelect max_files max_bytes (sortCandidates strategy cands) 0 0

/-- Embeds `select_files_to_copy` of mount_helper.py: the returned list of
relative paths. -/
def select_files_to_copy (candidates : List FileEntry) (max_files max_bytes : Option Nat)
    (strategy : String) (extensions : Option (List String)) : List String :=
  (selectEntries candidates max_files max_bytes strategy extensions).map (·.rel)

/-- Total byte size of a selection. -/
def totalBytes (l : List FileEntry) : Nat :=
  (l.map (·.size)).sum

/-! ## Mount Manager (mount_helper.py) -/

/-- External state consumed by one pass through the mount manager:
whether the device node exists, whether the OS `mount` call succeeds, the
stripped stdout of the `findmnt` fallback (empty when no existing mount is
discovered), and `os.path.ismount` at cleanup time. -/
structure MountWorld where
  deviceExists : Bool
  osMountSucceeds : Bool
  findmntOut : String
  stillMountPoint : String → Bool

/-- Errors raised by `mount_block_device`: `FileNotFoundError` for a
missing device node, the re-raised `CalledProcessError` of the OS mount. -/
inductive MountErr
  | deviceMissing
  | mountFailed
deriving DecidableEq, Repr

/-- Embeds `mount_block_device` of mount_helper.py.  On OS mount failure the
manager falls back to the `findmnt` mount table query and returns the
pre-existing mount point when one exists. -/
def mount_block_device (w : MountWorld) (device mount_base : String)
    (label : Option String) : Except MountErr String :=
  if ¬ w.deviceExists then .error .deviceMissing
  else
    let name := label.getD (basename device)
    let mount_path := mount_base ++ "/" ++ name
    if w.osMountSucceeds then .ok mount_path
    else if w.findmntOut ≠ "" then .ok w.findmntOut
    else .error .mountFailed

/-- Observable actions of the mount scope: the body of the `with` block
running at a mount path, and an `umount` subprocess call. -/
inductive MAct
  | bodyRun (path : String)
  | umountCall (path : String)
deriving DecidableEq, Repr

/-- Embeds `unmount` of mount_helper.py: invokes `umount` only when the path
is still a mount point. -/
def unmount_acts (w : MountWorld) (mount_path : String) : List MAct :=
  if w.stillMountPoint mount_path then [MAct.umountCall mount_path] else []

/-- Embeds the `MountedDevice` context manager: mount (with fallback), run
the body, then in `finally` call `unmount` on whatever path was returned.
On a mount error, `mount_path` is still `None` and the cleanup does
nothing. -/
def MountedDevice (w : MountWorld) (device mount_base : String)
    (label : Option String) : List MAct :=
  match mount_block_device w device mount_base label with
  | .error _ => []
  | .ok p => MAct.bodyRun p :: unmount_acts w p

/-- The mount manager returned a pre-existing automount: the OS mount call
failed and `findmnt` reported an existing target. -/
def usedExistingMount (w : MountWorld) : Prop :=
  w.deviceExists = true ∧ w.osMountSucceeds = false ∧ w.findmntOut ≠ ""

/-- Embeds the mount/cleanup flow of camera_service.py (the percentage-based
orchestrator): it first queries `findmnt` itself; when a pre-existing mount
is found it uses it with `mounted_via_context = False` and the `finally`
block skips the context exit; otherwise it enters `MountedDevice`. -/
def orchestrator_mount_cleanup (preFindmnt : String) (w : MountWorld)
    (device mount_base : String) : List MAct :=
  if preFindmnt ≠ "" then [MAct.bodyRun preFindmnt]
  else MountedDevice w device mount_base none

/-! ## Power Snapshot Reader (service.py and camera_service.py) -/

/-- Raw result of a shell command: returncode, stripped stdout, stripped
stderr. -/
structure CmdResult where
  code : Int
  out : String
  err : String
deriving DecidableEq, Repr

/-- Embeds `run_command` of service.py: on nonzero exit it returns
`(-1, empty, stderr)`, otherwise the raw triple. -/
def run_command (raw : CmdResult) : CmdResult :=
  if raw.code ≠ 0 then ⟨-1, "", raw.err⟩ else raw

/-- Python `str.splitlines` on stripped command output (no trailing
newline): empty string gives no lines. -/
def pySplitlines (s : String) : List String :=
  if s = "" then [] else s.splitOn "\n"

/-- Python `line.split(sep, 1)` on the first `=`: `none` models the
`ValueError` raised when the line has no `=`. -/
def splitOnFirstEq (line : String) : Option (String × String) :=
  match line.splitOn "=" with
  | k :: v :: rest => some (k, String.intercalate "=" (v :: rest))
  | _ => none

/-- Builds the stats dict of `read_stats_map` in insertion order; `none`
models the `ValueError` escaping the loop. -/
def parseStatsLines : List String → Option (List (String × String))
  | [] => some []
  | line :: rest =>
    match splitOnFirstEq line with
    | none => none
    | some (k, v) =>
      match parseStatsLines rest with
      | none => none
      | some m => some ((k.trim, v.trim) :: m)

/-- Python dict lookup with default: the last insertion for a key wins. -/
def dictGet (m : List (String × String)) (key dflt : String) : String :=
  match (m.filter (fun kv => kv.1 = key)).getLast? with
  | some kv => kv.2
  | none => dflt

/-- Embeds `read_stats_map` of service.py.  Note the source unpacks
`_, out, _` and therefore ignores the exit code of `run_command`. -/
def read_stats_map (raw : CmdResult) : Option (List (String × String)) :=
  parseStatsLines (pySplitlines (run_command raw).out)

/-- Decimal digit accumulator for the numeric value strings. -/
def parseDigits : List Char → Nat → Option Nat
  | [], acc => some acc
  | c :: cs, acc =>
    if c.isDigit then parseDigits cs (acc * 10 + (c.toNat - 48)) else none

/-- Python `int(s)` on the non-negative integer strings the
`lifepo4wered-cli` protocol emits; `none` models the `ValueError` of an
empty or non-numeric value. -/
def pyIntParse (s : String) : Option Nat :=
  match s.data with
  | [] => none
  | cs => parseDigits cs 0

/-- Python `float(s)` on the same integer strings (the protocol emits
integer millivolts/milliamps), exact as a rational; `none` models the
`ValueError` of a non-numeric value. -/
def parseVal (s : String) : Option ℚ :=
  (pyIntParse s).map (fun n => (n : ℚ))

/-- The snapshot dict built by `get_battery_stats` of service.py. -/
structure PowerSnapshot where
  battery_voltage : ℚ
  minium_boot_voltage : ℚ
  input_voltage : ℚ
  output_voltage : ℚ
  output_current : ℚ
  wake_timer_remaining : Nat
  ac_power : Bool
deriving DecidableEq, Repr

/-- Embeds `get_battery_stats` of service.py: reads the stats map and
derives display values (divided by 1000) plus the `ac_power` flag
`VIN >= VIN_THRESHOLD`; `none` models an escaping exception. -/
def get_battery_stats (raw : CmdResult) : Option PowerSnapshot :=
  match read_stats_map raw with
  | none => none
  | some m =>
    match parseVal (dictGet m "VBAT" "0"), parseVal (dictGet m "VBAT_BOOT" "0"),
          parseVal (dictGet m "VIN" "0"), parseVal (dictGet m "VOUT" "0"),
          parseVal (dictGet m "IOUT" "0"), pyIntParse (dictGet m "WAKE_TIME" "0"),
          parseVal (dictGet m "VIN_THRESHOLD" "0") with
    | some vbat, some vboot, some vin, some vout, some iout, some wake, some vthr =>
      some ⟨vbat / 1000, vboot / 1000, vin / 1000, vout / 1000, iout / 1000,
            wake, decide (vthr ≤ vin)⟩
    | _, _, _, _, _, _, _ => none

/-- Outcome of invoking `battery-info.sh` in camera_service.py: the three
caught exception classes, or parsed JSON output (a flat map of numeric
fields such as `battery_percent`). -/
inductive ScriptResult
  | calledProcessError
  | notJson
  | fileNotFound
  | json (data : List (String × ℚ))
deriving DecidableEq, Repr

/-- Embeds `get_battery_info` of camera_service.py: every caught failure
returns `None`; only parseable JSON output yields data. -/
def get_battery_info : ScriptResult → Option (List (String × ℚ))
  | .calledProcessError => none
  | .notJson => none
  | .fileNotFound => none
  | .json data => some data

/-! ## Orchestrator actions (service.py and camera_service.py) -/

/-- Observable actions of the service.py orchestrator and watchdog, and the
shutdown branch of camera_service.py. -/
inductive Act
  | setCameraUsb (enable : Bool)
  | setUsbPortPower (powerOn : Bool) (port : String)
  | sleepSec (secs : ℚ)
  | waitForCameraConnect
  | mountCmd
  | waitForNoAC
  | copyStaging
  | uploaderCall
  | shutdownCmd
deriving DecidableEq, Repr

/-- Embeds `start_camera_recording` of service.py: data line off, port
power on, 25 second stabilization sleep. -/
def start_camera_recording : List Act :=
  [Act.setCameraUsb false, Act.setUsbPortPower true "1", Act.sleepSec 25]

/-- Embeds `disconnect_camera` of service.py: port power off and a
20 second sleep. -/
def disconnect_camera : List Act :=
  [Act.setUsbPortPower false "1", Act.sleepSec 20]

/-- Embeds `mount_camera` of service.py: enable data line and port power,
block until the camera block device appears, then run the mount command. -/
def mount_camera : List Act :=
  [Act.setCameraUsb true, Act.setUsbPortPower true "1",
   Act.waitForCameraConnect, Act.mountCmd]

/-- Embeds `copy_files_while_no_ac` of service.py: mount the camera, then
run the staging copy gathered with the AC monitor, which disconnects the
camera when AC power returns.  The copy loop is abstracted to the single
`copyStaging` invocation of the stage-and-copy engine. -/
def copy_files_while_no_ac : List Act :=
  mount_camera ++ [Act.copyStaging] ++ disconnect_camera

/-- Embeds one iteration of the `while True` loop of `service_main` of
service.py, branching on the sampled `ac_power` flag. -/
def service_main_cycle (snap : PowerSnapshot) : List Act :=
  if snap.ac_power then
    start_camera_recording ++ [Act.waitForNoAC] ++ disconnect_camera
  else
    copy_files_while_no_ac

/-- Embeds `task_disconnect_on_low_battery` of service.py over a stream of
snapshots (one per loop iteration, the list being the observed prefix):
while AC is present or the battery is above the boot voltage it sleeps and
loops; otherwise it turns the USB port power off and breaks. -/
def task_disconnect_on_low_battery : List PowerSnapshot → List Act
  | [] => []
  | s :: rest =>
    if s.ac_power || decide (s.minium_boot_voltage < s.battery_voltage) then
      Act.sleepSec (if s.ac_power then 60 else 20) :: task_disconnect_on_low_battery rest
    else
      [Act.setUsbPortPower false "1"]

/-- Embeds the shutdown-threshold check of `main` in camera_service.py:
returns the emitted actions and whether the poll loop breaks.  Below the
threshold it issues `/sbin/shutdown -h now` unless in dry-run, and breaks
either way; it never touches USB port power. -/
def shutdown_check (pct shutdown_pct : ℚ) (dry_run : Bool) : List Act × Bool :=
  if pct < shutdown_pct then
    ((if dry_run then [] else [Act.shutdownCmd]), true)
  else ([], false)

/-! ## Staging deletion after upload (camera_service.py, e2e test) -/

/-- Observable actions of the post-upload step. -/
inductive UAct
  | uploadDirCall
  | removeStaged (entry : String)
deriving DecidableEq, Repr

/-- Embeds the upload-then-clean step shared by camera_service.py and
src/e2e_test_single_file.py: run `upload_dir`, and only when it returned
`True` remove each staged entry. -/
def upload_and_cleanup (staged : List String) (uploadOk : Bool) : List UAct :=
  UAct.uploadDirCall :: (if uploadOk then staged.map UAct.removeStaged else [])

/-- The same step with the upload outcome produced by the `upload_dir`
model itself. -/
def cycle_upload_step (staged : List String) (stagingIsDir : Bool)
    (staging_dir : String) (upload_cfg : UploadCfg) (dry_run : Bool) (retries : Nat)
    (backoff_factor initial_delay : ℚ) (run_as_user : Option String)
    (euidIsRoot : Bool) (sudoUser : Option String) (sshKeyOnDisk : Bool)
    (runs : Nat → RunOutcome) : List UAct :=
  upload_and_cleanup staged
    (upload_dir stagingIsDir staging_dir upload_cfg dry_run retries backoff_factor
      initial_delay run_as_user euidIsRoot sudoUser sshKeyOnDisk runs).success

/-! ## Device wait (device_detector.wait_for_block_device) -/

/-- Embeds the polling loop of `wait_for_block_device` in discrete time:
`found t` is the scan result at elapsed time `t`, scans are instantaneous,
and each `time.sleep(poll_interval)` advances time by `p`.  The outer
`Option` is recursion fuel (`none` = fuel exhausted, proved unreachable for
the fuel used below); the inner pair is the returned device (or `none` on
timeout) together with the elapsed time at return. -/
def waitLoop (found : ℚ → Option String) (timeout p : ℚ) :
    Nat → ℚ → Option (Option String × ℚ)
  | 0, _ => none
  | fuel + 1, t =>
    match found t with
    | some dev => some (some dev, t)
    | none =>
      if timeout < t then some (none, t)
      else waitLoop found timeout p fuel (t + p)

/-- Fuel sufficient for the loop to reach its timeout return. -/
def waitFuel (timeout p : ℚ) : Nat :=
  (⌊timeout / p⌋).toNat + 2

/-- Embeds `wait_for_block_device` of device_detector.py. -/
def wait_for_block_device (found : ℚ → Option String) (timeout p : ℚ) :
    Option (Option String × ℚ) :=
  waitLoop found timeout p (waitFuel timeout p) 0

/-! ## Helper lemmas -/

/-- Until the retry budget is exhausted, a permanently failing transfer
command makes the loop run `n + 1` attempts from attempt counter `attempt`
(with `retries = attempt + n`), return `False`, and sleep the geometric
delays. -/
theorem uploadAttempts_allfail (b : ℚ) :
    ∀ (n attempt : Nat) (d : ℚ),
      uploadAttempts (fun _ => RunOutcome.calledProcessError) false (attempt + n) b d attempt
        = ⟨false, n + 1, geomList d b n⟩ := by
  intro n
  induction n with
  | zero =>
    intro attempt d
    rw [uploadAttempts]
    simp [geomList]
  | succ n ih =>
    intro attempt d
    rw [uploadAttempts]
    have h1 : attempt ≤ attempt + (n + 1) := by omega
    have h2 : ¬ (attempt + 1 > attempt + (n + 1)) := by omega
    simp only [h1, dite_true, dif_pos, if_neg h2, Bool.false_eq_true, if_false]
    have := ih (attempt + 1) (d * b)
    rw [show attempt + (n + 1) = (attempt + 1) + n by omega, this]
    simp [geomList]

/-- The greedy loop accepts at most `n - cnt` further files when
`max_files = some n`. -/
theorem greedySelect_length (mb : Option Nat) (n : Nat) :
    ∀ (cs : List FileEntry) (cnt tot : Nat),
      (greedySelect (some n) mb cs cnt tot).length ≤ n - cnt := by
  intro cs
  induction cs with
  | nil => intro cnt tot; simp [greedySelect]
  | cons c cs ih =>
    intro cnt tot
    by_cases hl : atLimit (some n) cnt
    · simp [greedySelect, hl]
    · have hcnt : cnt < n := by
        simp [atLimit] at hl; omega
      by_cases hb : overBytes mb tot c.size
      · simp only [greedySelect, hl, if_false, hb, if_true, Bool.false_eq_true]
        exact ih cnt tot
      · simp only [greedySelect, hl, hb, if_false, Bool.false_eq_true, List.length_cons]
        have := ih (cnt + 1) (tot + c.size)
        omega

/-- The greedy loop never lets the accumulated byte total pass `max_bytes`. -/
theorem greedySelect_bytes (mf : Option Nat) (m : Nat) :
    ∀ (cs : List FileEntry) (cnt tot : Nat), tot ≤ m →
      tot + totalBytes (greedySelect mf (some m) cs cnt tot) ≤ m := by
  intro cs
  induction cs with
  | nil => intro cnt tot h; simpa [greedySelect, totalBytes] using h
  | cons c cs ih =>
    intro cnt tot h
    by_cases hl : atLimit mf cnt
    · simpa [greedySelect, hl, totalBytes] using h
    · by_cases hb : overBytes (some m) tot c.size
      · simp only [greedySelect, hl, hb, if_true, if_false, Bool.false_eq_true]
        exact ih cnt tot h
      · have hfit : tot + c.size ≤ m := by
          simp [overBytes] at hb; omega
        simp only [greedySelect, hl, hb, if_false, Bool.false_eq_true, totalBytes,
          List.map_cons, List.sum_cons]
        have := ih (cnt + 1) (tot + c.size) hfit
        simp only [totalBytes] at this
        omega

/-- The greedy loop returns a subsequence of its candidate list. -/
theorem greedySelect_sublist (mf mb : Option Nat) :
    ∀ (cs : List FileEntry) (cnt tot : Nat),
      List.Sublist (greedySelect mf mb cs cnt tot) cs := by
  intro cs
  induction cs with
  | nil => intro cnt tot; simp [greedySelect]
  | cons c cs ih =>
    intro cnt tot
    by_cases hl : atLimit mf cnt
    · simp [greedySelect, hl]
    · by_cases hb : overBytes mb tot c.size
      · simp only [greedySelect, hl, hb, if_true, if_false, Bool.false_eq_true]
        exact (ih cnt tot).cons c
      · simp only [greedySelect, hl, hb, if_false, Bool.false_eq_true]
        exact (ih (cnt + 1) (tot + c.size)).cons₂ c

/-- Stable descending sort by mtime is pairwise non-increasing in mtime. -/
theorem mergeSort_newest_pairwise (cs : List FileEntry) :
    (cs.mergeSort newestLe).Pairwise (fun a b => b.mtime ≤ a.mtime) := by
  have h := @List.sorted_mergeSort FileEntry newestLe
    (fun a b c hab hbc => by
      simp only [newestLe, decide_eq_true_eq] at *; exact le_trans hbc hab)
    (fun a b => by
      simp only [newestLe, Bool.or_eq_true, decide_eq_true_eq]; exact le_total b.mtime a.mtime)
    cs
  exact h.imp (by intro a b hab; simpa [newestLe] using hab)

/-- Stable ascending sort by mtime is pairwise non-decreasing in mtime. -/
theorem mergeSort_oldest_pairwise (cs : List FileEntry) :
    (cs.mergeSort oldestLe).Pairwise (fun a b => a.mtime ≤ b.mtime) := by
  have h := @List.sorted_mergeSort FileEntry oldestLe
    (fun a b c hab hbc => by
      simp only [oldestLe, decide_eq_true_eq] at *; exact le_trans hab hbc)
    (fun a b => by
      simp only [oldestLe, Bool.or_eq_true, decide_eq_true_eq]; exact le_total a.mtime b.mtime)
    cs
  exact h.imp (by intro a b hab; simpa [oldestLe] using hab)

/-- Stable descending sort by size is pairwise non-increasing in size. -/
theorem mergeSort_largest_pairwise (cs : List FileEntry) :
    (cs.mergeSort largestLe).Pairwise (fun a b => b.size ≤ a.size) := by
  have h := @List.sorted_mergeSort FileEntry largestLe
    (fun a b c hab hbc => by
      simp only [largestLe, decide_eq_true_eq] at *; exact le_trans hbc hab)
    (fun a b => by
      simp only [largestLe, Bool.or_eq_true, decide_eq_true_eq]; exact le_total b.size a.size)
    cs
  exact h.imp (by intro a b hab; simpa [largestLe] using hab)

/-- Unfolding of the strategy dispatch at `newest`. -/
theorem sortCandidates_newest (cs : List FileEntry) :
    sortCandidates "newest" cs = cs.mergeSort newestLe := rfl

/-- Unfolding of the strategy dispatch at `oldest`. -/
theorem sortCandidates_oldest (cs : List FileEntry) :
    sortCandidates "oldest" cs = cs.mergeSort oldestLe := rfl

/-- Unfolding of the strategy dispatch at `largest`. -/
theorem sortCandidates_largest (cs : List FileEntry) :
    sortCandidates "largest" cs = cs.mergeSort largestLe := rfl

/-! ## Claim C3 — uploader retry policy -/

/-- Claim C3: for a transfer command that fails on every attempt,
`upload_dir` with `retries = 3` invokes the command exactly 4 times and
returns `False`; the inter-attempt delays are `initial_delay`,
`initial_delay * backoff`, `initial_delay * backoff^2`; and in general the
loop returns `False` only after all `retries + 1` attempts are exhausted. -/
theorem uploader_retry_policy (staging_dir : String) (upload_cfg : UploadCfg)
    (b d : ℚ) (run_as_user : Option String) (euidIsRoot : Bool)
    (sudoUser : Option String) (sshKeyOnDisk : Bool)
    (hm : upload_cfg.method.getD "rsync" = "rsync")
    (hd : destIsSet upload_cfg.dest_path = true) :
    ((upload_dir true staging_dir upload_cfg false 3 b d run_as_user euidIsRoot
        sudoUser sshKeyOnDisk (fun _ => RunOutcome.calledProcessError)).invocations = 4
      ∧ (upload_dir true staging_dir upload_cfg false 3 b d run_as_user euidIsRoot
        sudoUser sshKeyOnDisk (fun _ => RunOutcome.calledProcessError)).success = false
      ∧ (upload_dir true staging_dir upload_cfg false 3 b d run_as_user euidIsRoot
        sudoUser sshKeyOnDisk (fun _ => RunOutcome.calledProcessError)).sleeps
          = [d, d * b, d * b ^ 2])
    ∧ ∀ retries : Nat,
      (upload_dir true staging_dir upload_cfg false retries b d run_as_user euidIsRoot
        sudoUser sshKeyOnDisk (fun _ => RunOutcome.calledProcessError)).invocations
          = retries + 1
      ∧ (upload_dir true staging_dir upload_cfg false retries b d run_as_user euidIsRoot
        sudoUser sshKeyOnDisk (fun _ => RunOutcome.calledProcessError)).success = false := by
  have hup : ∀ retries : Nat,
      (upload_dir true staging_dir upload_cfg false retries b d run_as_user euidIsRoot
        sudoUser sshKeyOnDisk (fun _ => RunOutcome.calledProcessError)).success = false
      ∧ (upload_dir true staging_dir upload_cfg false retries b d run_as_user euidIsRoot
        sudoUser sshKeyOnDisk (fun _ => RunOutcome.calledProcessError)).invocations
          = retries + 1
      ∧ (upload_dir true staging_dir upload_cfg false retries b d run_as_user euidIsRoot
        sudoUser sshKeyOnDisk (fun _ => RunOutcome.calledProcessError)).sleeps
          = geomList d b retries := by
    intro retries
    have ha := uploadAttempts_allfail b retries 0 d
    simp only [Nat.zero_add] at ha
    simp [upload_dir, hm, hd, ha]
  have hb2 : d * b * b = d * b ^ 2 := by ring
  have hg : geomList d b 3 = [d, d * b, d * b ^ 2] := by
    simp only [geomList]
    rw [hb2]
  refine ⟨⟨(hup 3).2.1, (hup 3).1, ?_⟩, fun retries => ⟨(hup retries).2.1, (hup retries).1⟩⟩
  rw [(hup 3).2.2, hg]

/-- Witness for C3 at a concrete configuration, backoff 2 and delay 2. -/
theorem uploader_retry_policy_witness :
    (upload_dir true "/st" ⟨some "rsync", none, none, none, some "/dest", none⟩ false 3 2 2
      none false none false (fun _ => RunOutcome.calledProcessError)).invocations = 4
    ∧ (upload_dir true "/st" ⟨some "rsync", none, none, none, some "/dest", none⟩ false 3 2 2
      none false none false (fun _ => RunOutcome.calledProcessError)).sleeps = [2, 4, 8] := by
  have h := uploader_retry_policy "/st" ⟨some "rsync", none, none, none, some "/dest", none⟩
    2 2 none false none false rfl rfl
  refine ⟨h.1.1, ?_⟩
  rw [h.1.2.2]
  norm_num

/-! ## Claim C4 — file selector bounds -/

/-- Claim C4: the selection respects the `max_files` count bound and the
`max_bytes` byte bound; a candidate that would push the byte total past
`max_bytes` is skipped with iteration continuing (not aborted); iteration
stops once `max_files` files are accepted. -/
theorem file_selector_bounds (candidates : List FileEntry)
    (max_files max_bytes : Option Nat) (strategy : String)
    (extensions : Option (List String)) :
    (∀ n, max_files = some n →
      (selectEntries candidates max_files max_bytes strategy extensions).length ≤ n)
    ∧ (∀ m, max_bytes = some m →
      totalBytes (selectEntries candidates max_files max_bytes strategy extensions) ≤ m)
    ∧ (∀ (c : FileEntry) (cs : List FileEntry) (cnt tot m : Nat),
        max_bytes = some m → atLimit max_files cnt = false → m < tot + c.size →
        greedySelect max_files max_bytes (c :: cs) cnt tot
          = greedySelect max_files max_bytes cs cnt tot)
    ∧ (∀ (c : FileEntry) (cs : List FileEntry) (tot n : Nat), max_files = some n →
        greedySelect max_files max_bytes (c :: cs) n tot = []) := by
  refine ⟨?_, ?_, ?_, ?_⟩
  · intro n hn
    subst hn
    by_cases hc : (candidates.filter (fun c => extMatches extensions (basename c.rel))).isEmpty
    · simp [selectEntries, hc]
    · simp only [selectEntries, hc, if_false, Bool.false_eq_true]
      simpa using greedySelect_length max_bytes n
        (sortCandidates strategy (candidates.filter (fun c => extMatches extensions (basename c.rel)))) 0 0
  · intro m hm
    subst hm
    by_cases hc : (candidates.filter (fun c => extMatches extensions (basename c.rel))).isEmpty
    · simp [selectEntries, hc, totalBytes]
    · simp only [selectEntries, hc, if_false, Bool.false_eq_true]
      simpa using greedySelect_bytes max_files m
        (sortCandidates strategy (candidates.filter (fun c => extMatches extensions (basename c.rel)))) 0 0
        (Nat.zero_le m)
  · intro c cs cnt tot m hm hcnt hover
    subst hm
    simp [greedySelect, hcnt, overBytes, hover]
  · intro c cs tot n hn
    subst hn
    simp [greedySelect, atLimit]

/-- Witness for C4: a selection limited to 2 files has length at most 2. -/
theorem file_selector_bounds_witness :
    (selectEntries [⟨"a", 5, 3⟩, ⟨"b", 2, 7⟩, ⟨"c", 9, 1⟩] (some 2) (some 10)
      "newest" none).length ≤ 2 :=
  (file_selector_bounds [⟨"a", 5, 3⟩, ⟨"b", 2, 7⟩, ⟨"c", 9, 1⟩] (some 2) (some 10)
    "newest" none).1 2 rfl

/-! ## Claim C5 — file selector ordering -/

/-- Claim C5: strategy `newest` yields a selection non-increasing in
modification time, `oldest` non-decreasing, `largest` non-increasing in
size, and any other strategy string behaves exactly as `newest`. -/
theorem file_selector_ordering (candidates : List FileEntry)
    (max_files max_bytes : Option Nat) (strategy : String)
    (extensions : Option (List String)) :
    (strategy = "newest" →
      (selectEntries candidates max_files max_bytes strategy extensions).Pairwise
        (fun a b => b.mtime ≤ a.mtime))
    ∧ (strategy = "oldest" →
      (selectEntries candidates max_files max_bytes strategy extensions).Pairwise
        (fun a b => a.mtime ≤ b.mtime))
    ∧ (strategy = "largest" →
      (selectEntries candidates max_files max_bytes strategy extensions).Pairwise
        (fun a b => b.size ≤ a.size))
    ∧ (strategy ≠ "newest" → strategy ≠ "oldest" → strategy ≠ "largest" →
      selectEntries candidates max_files max_bytes strategy extensions
        = selectEntries candidates max_files max_bytes "newest" extensions) := by
  refine ⟨?_, ?_, ?_, ?_⟩
  · intro h
    subst h
    by_cases hc : (candidates.filter (fun c => extMatches extensions (basename c.rel))).isEmpty
    · simp [selectEntries, hc]
    · simp only [selectEntries, hc, if_false, Bool.false_eq_true]
      have hp := mergeSort_newest_pairwise
        (candidates.filter (fun c => extMatches extensions (basename c.rel)))
      rw [← sortCandidates_newest] at hp
      exact List.Pairwise.sublist (greedySelect_sublist max_files max_bytes _ 0 0) hp
  · intro h
    subst h
    by_cases hc : (candidates.filter (fun c => extMatches extensions (basename c.rel))).isEmpty
    · simp [selectEntries, hc]
    · simp only [selectEntries, hc, if_false, Bool.false_eq_true]
      have hp := mergeSort_oldest_pairwise
        (candidates.filter (fun c => extMatches extensions (basename c.rel)))
      rw [← sortCandidates_oldest] at hp
      exact List.Pairwise.sublist (greedySelect_sublist max_files max_bytes _ 0 0) hp
  · intro h
    subst h
    by_cases hc : (candidates.filter (fun c => extMatches extensions (basename c.rel))).isEmpty
    · simp [selectEntries, hc]
    · simp only [selectEntries, hc, if_false, Bool.false_eq_true]
      have hp := mergeSort_largest_pairwise
        (candidates.filter (fun c => extMatches extensions (basename c.rel)))
      rw [← sortCandidates_largest] at hp
      exact List.Pairwise.sublist (greedySelect_sublist max_files max_bytes _ 0 0) hp
  · intro h1 h2 h3
    simp [selectEntries, sortCandidates, h1, h2, h3]

/-- Witness for C5: a concrete `newest` selection is non-increasing in
modification time. -/
theorem file_selector_ordering_witness :
    (selectEntries [⟨"a", 5, 3⟩, ⟨"b", 2, 7⟩, ⟨"c", 9, 1⟩] none none
      "newest" none).Pairwise (fun a b => b.mtime ≤ a.mtime) :=
  (file_selector_ordering [⟨"a", 5, 3⟩, ⟨"b", 2, 7⟩, ⟨"c", 9, 1⟩] none none
    "newest" none).1 rfl

/-! ## Claim C10 — uploader precondition checks -/

/-- Claim C10: if the staging directory is not a directory, or the method is
not rsync, or no destination path is configured, `upload_dir` returns
`False` without building or executing any transfer command — even in
dry-run; once these validations pass, dry-run short-circuits to `True`
with no command execution. -/
theorem uploader_precondition_checks (stagingIsDir : Bool) (staging_dir : String)
    (upload_cfg : UploadCfg) (dry_run : Bool) (retries : Nat) (b d : ℚ)
    (run_as_user : Option String) (euidIsRoot : Bool) (sudoUser : Option String)
    (sshKeyOnDisk : Bool) (runs : Nat → RunOutcome) :
    ((stagingIsDir = false ∨ upload_cfg.method.getD "rsync" ≠ "rsync"
        ∨ destIsSet upload_cfg.dest_path = false) →
      upload_dir stagingIsDir staging_dir upload_cfg dry_run retries b d run_as_user
        euidIsRoot sudoUser sshKeyOnDisk runs = ⟨false, none, 0, []⟩)
    ∧ (stagingIsDir = true → upload_cfg.method.getD "rsync" = "rsync" →
        destIsSet upload_cfg.dest_path = true → dry_run = true →
      (upload_dir stagingIsDir staging_dir upload_cfg dry_run retries b d run_as_user
        euidIsRoot sudoUser sshKeyOnDisk runs).success = true
      ∧ (upload_dir stagingIsDir staging_dir upload_cfg dry_run retries b d run_as_user
        euidIsRoot sudoUser sshKeyOnDisk runs).invocations = 0
      ∧ (upload_dir stagingIsDir staging_dir upload_cfg dry_run retries b d run_as_user
        euidIsRoot sudoUser sshKeyOnDisk runs).sleeps = []) := by
  constructor
  · intro h
    by_cases h1 : stagingIsDir = true
    · by_cases h2 : upload_cfg.method.getD "rsync" = "rsync"
      · have h3 : destIsSet upload_cfg.dest_path = false := by
          rcases h with h | h | h
          · rw [h1] at h; exact absurd h (by simp)
          · exact absurd h2 h
          · exact h
        simp [upload_dir, h1, h2, h3]
      · simp [upload_dir, h1, h2]
    · have h1f : stagingIsDir = false := by
        cases stagingIsDir
        · rfl
        · exact absurd rfl h1
      simp [upload_dir, h1f]
  · intro h1 h2 h3 h4
    subst h1; subst h4
    have ha : uploadAttempts runs true retries b d 0 = ⟨true, 0, []⟩ := by
      rw [uploadAttempts]
      simp
    simp [upload_dir, h2, h3, ha]

/-- Witness for C10: with a missing staging directory and dry-run enabled,
the result is failure with no command built and no invocation. -/
theorem uploader_precondition_checks_witness :
    upload_dir false "/st" ⟨some "rsync", none, none, none, some "/dest", none⟩ true 3 2 2
      none false none false (fun _ => RunOutcome.ok) = ⟨false, none, 0, []⟩ :=
  (uploader_precondition_checks false "/st" ⟨some "rsync", none, none, none, some "/dest", none⟩
    true 3 2 2 none false none false (fun _ => RunOutcome.ok)).1 (Or.inl rfl)

/-! ## Claim C9 — at-least-once staging -/

/-- Claim C9: staged files are deleted only after `upload_dir` for the batch
returned success; on upload failure the staged files are left intact
(no removal action), and no removal ever precedes the upload call. -/
theorem staging_at_least_once (staged : List String) (stagingIsDir : Bool)
    (staging_dir : String) (upload_cfg : UploadCfg) (dry_run : Bool) (retries : Nat)
    (b d : ℚ) (run_as_user : Option String) (euidIsRoot : Bool)
    (sudoUser : Option String) (sshKeyOnDisk : Bool) (runs : Nat → RunOutcome) :
    ((upload_dir stagingIsDir staging_dir upload_cfg dry_run retries b d run_as_user
        euidIsRoot sudoUser sshKeyOnDisk runs).success = false →
      cycle_upload_step staged stagingIsDir staging_dir upload_cfg dry_run retries b d
        run_as_user euidIsRoot sudoUser sshKeyOnDisk runs = [UAct.uploadDirCall])
    ∧ (∀ e, UAct.removeStaged e ∈ cycle_upload_step staged stagingIsDir staging_dir
        upload_cfg dry_run retries b d run_as_user euidIsRoot sudoUser sshKeyOnDisk runs →
      (upload_dir stagingIsDir staging_dir upload_cfg dry_run retries b d run_as_user
        euidIsRoot sudoUser sshKeyOnDisk runs).success = true)
    ∧ (cycle_upload_step staged stagingIsDir staging_dir upload_cfg dry_run retries b d
        run_as_user euidIsRoot sudoUser sshKeyOnDisk runs).head?
      = some UAct.uploadDirCall := by
  cases hok : (upload_dir stagingIsDir staging_dir upload_cfg dry_run retries b d
      run_as_user euidIsRoot sudoUser sshKeyOnDisk runs).success
  · refine ⟨fun _ => ?_, fun e he => ?_, ?_⟩
    · simp [cycle_upload_step, upload_and_cleanup, hok]
    · simp [cycle_upload_step, upload_and_cleanup, hok] at he
    · simp [cycle_upload_step, upload_and_cleanup, hok]
  · refine ⟨fun hfalse => ?_, fun e he => rfl, ?_⟩
    · exact absurd hfalse (by simp)
    · simp [cycle_upload_step, upload_and_cleanup, hok]

/-- Witness for C9: with a failing upload (missing staging directory), the
step performs the upload call and no removal. -/
theorem staging_at_least_once_witness :
    cycle_upload_step ["a.mp4"] false "/st"
      ⟨some "rsync", none, none, none, some "/dest", none⟩ false 3 2 2
      none false none false (fun _ => RunOutcome.calledProcessError)
      = [UAct.uploadDirCall] :=
  (staging_at_least_once ["a.mp4"] false "/st"
    ⟨some "rsync", none, none, none, some "/dest", none⟩ false 3 2 2
    none false none false (fun _ => RunOutcome.calledProcessError)).1 (by decide)

/-! ## Claim C8 — AC-present cycle -/

/-- Claim C8: a `service_main` cycle whose sampled snapshot has
`ac_power = True` runs exactly the recording sequence (data line off,
recording port power on, stabilization sleep), blocks until AC is lost,
then disconnects; it never reaches the device wait, the mount command, the
staging copy, or an uploader invocation. -/
theorem ac_present_cycle (snap : PowerSnapshot) (h : snap.ac_power = true) :
    service_main_cycle snap
      = start_camera_recording ++ [Act.waitForNoAC] ++ disconnect_camera
    ∧ Act.setUsbPortPower true "1" ∈ service_main_cycle snap
    ∧ Act.waitForCameraConnect ∉ service_main_cycle snap
    ∧ Act.mountCmd ∉ service_main_cycle snap
    ∧ Act.copyStaging ∉ service_main_cycle snap
    ∧ Act.uploaderCall ∉ service_main_cycle snap := by
  have hc : service_main_cycle snap
      = start_camera_recording ++ [Act.waitForNoAC] ++ disconnect_camera := by
    simp [service_main_cycle, h]
  rw [hc]
  refine ⟨rfl, ?_, ?_, ?_, ?_, ?_⟩
  all_goals simp [start_camera_recording, disconnect_camera]

/-- Witness for C8 at a concrete AC-present snapshot. -/
theorem ac_present_cycle_witness :
    Act.mountCmd ∉ service_main_cycle ⟨4, 3, 5, 5, 1, 0, true⟩ :=
  (ac_present_cycle ⟨4, 3, 5, 5, 1, 0, true⟩ rfl).2.2.2.1

/-! ## Claim C1 — low-battery watchdog (corrected) -/

/-- Claim C1 as stated is false: at the spec scenario snapshot
(acPresent false, batteryVoltage 3.0, minBootVoltage 3.15) the voltage-based
watchdog `task_disconnect_on_low_battery` disables USB port power and
terminates, but never issues any OS shutdown request. -/
theorem watchdog_counterexample :
    (PowerSnapshot.mk 3 (63/20) 0 0 0 0 false).ac_power = false
    ∧ (PowerSnapshot.mk 3 (63/20) 0 0 0 0 false).battery_voltage
        ≤ (PowerSnapshot.mk 3 (63/20) 0 0 0 0 false).minium_boot_voltage
    ∧ task_disconnect_on_low_battery [PowerSnapshot.mk 3 (63/20) 0 0 0 0 false]
        = [Act.setUsbPortPower false "1"]
    ∧ Act.shutdownCmd ∉
        task_disconnect_on_low_battery [PowerSnapshot.mk 3 (63/20) 0 0 0 0 false] := by
  have ht : task_disconnect_on_low_battery [PowerSnapshot.mk 3 (63/20) 0 0 0 0 false]
      = [Act.setUsbPortPower false "1"] := by
    simp [task_disconnect_on_low_battery]
    norm_num
  refine ⟨rfl, by norm_num, ht, ?_⟩
  rw [ht]
  simp

/-- Claim C1 amended: on a snapshot with no AC and battery voltage at or
below the boot voltage, the voltage-based watchdog disables USB port power
and terminates its loop without issuing any shutdown request; in the
percentage-based variant, a percentage below the shutdown threshold breaks
the poll loop and, outside dry-run, issues the OS shutdown request, without
touching USB port power. -/
theorem watchdog_low_battery_behavior :
    (∀ (s : PowerSnapshot) (rest : List PowerSnapshot),
      s.ac_power = false → s.battery_voltage ≤ s.minium_boot_voltage →
      task_disconnect_on_low_battery (s :: rest) = [Act.setUsbPortPower false "1"]
      ∧ Act.shutdownCmd ∉ task_disconnect_on_low_battery (s :: rest))
    ∧ (∀ (pct thr : ℚ) (dry : Bool), pct < thr →
      (shutdown_check pct thr dry).2 = true
      ∧ (dry = false → (shutdown_check pct thr dry).1 = [Act.shutdownCmd])
      ∧ Act.setUsbPortPower false "1" ∉ (shutdown_check pct thr dry).1) := by
  constructor
  · intro s rest hac hle
    have hgt : ¬ (s.minium_boot_voltage < s.battery_voltage) := not_lt.mpr hle
    have ht : task_disconnect_on_low_battery (s :: rest)
        = [Act.setUsbPortPower false "1"] := by
      simp [task_disconnect_on_low_battery, hac, hgt]
    rw [ht]
    exact ⟨rfl, by simp⟩
  · intro pct thr dry hlt
    have hc : shutdown_check pct thr dry
        = ((if dry then [] else [Act.shutdownCmd]), true) := by
      simp [shutdown_check, hlt]
    rw [hc]
    refine ⟨rfl, fun hdry => by simp [hdry], ?_⟩
    cases dry
    all_goals simp

/-- Witness for the amended C1 at the spec scenario values: voltage variant
at (3.0 V, boot 3.15 V, no AC); percentage variant at 20 % with threshold
25 %, not in dry-run. -/
theorem watchdog_low_battery_behavior_witness :
    task_disconnect_on_low_battery [PowerSnapshot.mk 3 (63/20) 0 0 0 0 false]
      = [Act.setUsbPortPower false "1"]
    ∧ (shutdown_check 20 25 false).1 = [Act.shutdownCmd] :=
  ⟨(watchdog_low_battery_behavior.1 (PowerSnapshot.mk 3 (63/20) 0 0 0 0 false) []
      rfl (by norm_num)).1,
   (watchdog_low_battery_behavior.2 20 25 false (by norm_num)).2.1 rfl⟩

/-! ## Claim C2 — mount reuse and cleanup (corrected) -/

/-- Claim C2 as stated is false for the mount manager itself: when
`mount_block_device` falls back to a pre-existing automount at
`/mnt/existing`, the `MountedDevice` cleanup still performs an `umount`
call on it. -/
theorem mount_reuse_counterexample :
    usedExistingMount ⟨true, false, "/mnt/existing", fun p => p == "/mnt/existing"⟩
    ∧ MAct.umountCall "/mnt/existing" ∈
        MountedDevice ⟨true, false, "/mnt/existing", fun p => p == "/mnt/existing"⟩
          "/dev/sda1" "/mnt/cam" none := by
  constructor
  · exact ⟨rfl, rfl, by decide⟩
  · decide

/-- Claim C2 amended: the no-unmount-on-reuse behavior holds one level up,
in the orchestrator of camera_service.py — when its own `findmnt` pre-check
finds an existing mount it skips the context-manager exit, so no unmount
call is made; `MountedDevice` itself unmounts whatever path
`mount_block_device` returned (owned or reused) whenever that path is still
a mount point, and in particular a mount created by the manager is
unmounted on scope exit. -/
theorem mount_cleanup_ownership :
    (∀ (pre : String) (w : MountWorld) (dev base : String), pre ≠ "" →
      ∀ p, MAct.umountCall p ∉ orchestrator_mount_cleanup pre w dev base)
    ∧ (∀ (w : MountWorld) (dev base : String) (lbl : Option String) (p : String),
      mount_block_device w dev base lbl = .ok p → w.stillMountPoint p = true →
      MAct.umountCall p ∈ MountedDevice w dev base lbl)
    ∧ (∀ (w : MountWorld) (dev base : String),
      w.deviceExists = true → w.osMountSucceeds = true →
      w.stillMountPoint (base ++ "/" ++ basename dev) = true →
      MAct.umountCall (base ++ "/" ++ basename dev)
        ∈ orchestrator_mount_cleanup "" w dev base) := by
  have hmem : ∀ (w : MountWorld) (dev base : String) (lbl : Option String) (p : String),
      mount_block_device w dev base lbl = .ok p → w.stillMountPoint p = true →
      MAct.umountCall p ∈ MountedDevice w dev base lbl := by
    intro w dev base lbl p hok hmp
    simp [MountedDevice, hok, unmount_acts, hmp]
  refine ⟨?_, hmem, ?_⟩
  · intro pre w dev base hpre p
    simp [orchestrator_mount_cleanup, hpre]
  · intro w dev base hdev hos hmp
    have hok : mount_block_device w dev base none = .ok (base ++ "/" ++ basename dev) := by
      simp [mount_block_device, hdev, hos]
    have : MAct.umountCall (base ++ "/" ++ basename dev)
        ∈ MountedDevice w dev base none := hmem w dev base none _ hok hmp
    simpa [orchestrator_mount_cleanup] using this

/-- Witness for the amended C2: a pre-existing mount found by the
orchestrator pre-check is not unmounted, and a mount created by the manager
itself is unmounted. -/
theorem mount_cleanup_ownership_witness :
    MAct.umountCall "/mnt/existing" ∉
      orchestrator_mount_cleanup "/mnt/existing"
        ⟨true, true, "", fun _ => true⟩ "/dev/sda1" "/mnt/cam"
    ∧ MAct.umountCall ("/mnt/cam" ++ "/" ++ basename "/dev/sda1") ∈
        orchestrator_mount_cleanup "" ⟨true, true, "", fun _ => true⟩ "/dev/sda1" "/mnt/cam" :=
  ⟨mount_cleanup_ownership.1 "/mnt/existing" ⟨true, true, "", fun _ => true⟩
      "/dev/sda1" "/mnt/cam" (by decide) "/mnt/existing",
   mount_cleanup_ownership.2.2 ⟨true, true, "", fun _ => true⟩ "/dev/sda1" "/mnt/cam"
      rfl rfl rfl⟩

/-! ## Claim C6 — power snapshot reader error contract (corrected) -/

/-- Claim C6 as stated is false for the voltage-based reader: when the
query tool is absent (shell exit code 127, empty stdout), `get_battery_stats`
does not fail — it returns a default-valued snapshot with every field zero
and `ac_power = True` (since 0 >= 0). -/
theorem power_reader_counterexample :
    (CmdResult.mk 127 "" "lifepo4wered-cli: not found").code ≠ 0
    ∧ get_battery_stats ⟨127, "", "lifepo4wered-cli: not found"⟩
        = some ⟨0, 0, 0, 0, 0, 0, true⟩ := by
  constructor
  · norm_num
  · have hrc : run_command ⟨127, "", "lifepo4wered-cli: not found"⟩
        = ⟨-1, "", "lifepo4wered-cli: not found"⟩ := by
      simp [run_command]
    have hmap : read_stats_map ⟨127, "", "lifepo4wered-cli: not found"⟩ = some [] := by
      simp [read_stats_map, hrc, pySplitlines, parseStatsLines]
    have hv : parseVal "0" = some 0 := by
      simp [parseVal, pyIntParse, parseDigits]
    have hw : pyIntParse "0" = some 0 := by
      simp [pyIntParse, parseDigits]
    simp [get_battery_stats, hmap, dictGet, hv, hw]

/-- Claim C6 amended: the percentage-based reader `get_battery_info`
returns an error outcome (`None`) whenever the script fails, is missing, or
emits non-JSON output; the voltage-based `get_battery_stats` instead
returns the default-valued snapshot (zeros, `ac_power = True`) on a failed
command, and raises (modelled `none`) only when a stats line lacks an
equals sign. -/
theorem power_reader_error_contract :
    (∀ r : ScriptResult,
      r = ScriptResult.calledProcessError ∨ r = ScriptResult.notJson
        ∨ r = ScriptResult.fileNotFound →
      get_battery_info r = none)
    ∧ (∀ raw : CmdResult, raw.code ≠ 0 →
      get_battery_stats raw = some ⟨0, 0, 0, 0, 0, 0, true⟩)
    ∧ (∀ raw : CmdResult, raw.code = 0 →
      parseStatsLines (pySplitlines raw.out) = none →
      get_battery_stats raw = none) := by
  refine ⟨?_, ?_, ?_⟩
  · intro r hr
    rcases hr with h | h | h
    all_goals subst h
    all_goals rfl
  · intro raw h
    have hrc : run_command raw = ⟨-1, "", raw.err⟩ := by simp [run_command, h]
    have hmap : read_stats_map raw = some [] := by
      simp [read_stats_map, hrc, pySplitlines, parseStatsLines]
    have hv : parseVal "0" = some 0 := by
      simp [parseVal, pyIntParse, parseDigits]
    have hw : pyIntParse "0" = some 0 := by
      simp [pyIntParse, parseDigits]
    simp [get_battery_stats, hmap, dictGet, hv, hw]
  · intro raw h hp
    have hrc : run_command raw = raw := by simp [run_command, h]
    have hmap : read_stats_map raw = none := by
      simp [read_stats_map, hrc, hp]
    simp [get_battery_stats, hmap]

/-- Witness for the amended C6: non-JSON script output yields `None`, and a
failed voltage query yields the default snapshot. -/
theorem power_reader_error_contract_witness :
    get_battery_info ScriptResult.notJson = none
    ∧ get_battery_stats ⟨1, "", "boom"⟩ = some ⟨0, 0, 0, 0, 0, 0, true⟩ :=
  ⟨power_reader_error_contract.1 ScriptResult.notJson (Or.inr (Or.inl rfl)),
   power_reader_error_contract.2.1 ⟨1, "", "boom"⟩ (by norm_num)⟩

/-! ## Claim C7 — bounded device wait (corrected) -/

/-- Claim C7 as stated is false in its strict bound: with timeout 20 and
poll interval 5 and a device that never appears, the wait returns the
normal `none` outcome but only at elapsed time 25, strictly past the
timeout. -/
theorem device_wait_counterexample :
    wait_for_block_device (fun _ => none) 20 5 = some (none, 25)
    ∧ (20 : ℚ) < 25 := by
  constructor
  · have hfuel : waitFuel 20 5 = 6 := by
      norm_num [waitFuel]
      decide
    simp only [wait_for_block_device]
    rw [hfuel]
    norm_num [waitLoop]
  · norm_num

/-- With positive poll interval and enough fuel, the polling loop reaches a
return: the result is a normal outcome at a time at most `timeout + p`,
and when the device never appears the outcome is `none` at a time strictly
past the timeout. -/
theorem waitLoop_reaches (found : ℚ → Option String) (timeout p : ℚ) :
    ∀ (fuel : Nat) (t : ℚ), t ≤ timeout + p → timeout < t + (fuel : ℚ) * p →
    ∃ res tf, waitLoop found timeout p (fuel + 1) t = some (res, tf)
      ∧ tf ≤ timeout + p
      ∧ ((∀ q, found q = none) → res = none ∧ timeout < tf) := by
  intro fuel
  induction fuel with
  | zero =>
    intro t hbound hpast
    cases hf : found t with
    | some dev =>
      refine ⟨some dev, t, by simp [waitLoop, hf], hbound, fun hall => ?_⟩
      rw [hall t] at hf
      cases hf
    | none =>
      have hto : timeout < t := by simpa using hpast
      exact ⟨none, t, by simp [waitLoop, hf, hto], hbound, fun _ => ⟨rfl, hto⟩⟩
  | succ n ih =>
    intro t hbound hpast
    cases hf : found t with
    | some dev =>
      refine ⟨some dev, t, by simp [waitLoop, hf], hbound, fun hall => ?_⟩
      rw [hall t] at hf
      cases hf
    | none =>
      by_cases hto : timeout < t
      · exact ⟨none, t, by simp [waitLoop, hf, hto], hbound, fun _ => ⟨rfl, hto⟩⟩
      · have ht' : t ≤ timeout := not_lt.mp hto
        have hstep : waitLoop found timeout p (n + 1 + 1) t
            = waitLoop found timeout p (n + 1) (t + p) := by
          simp [waitLoop, hf, hto]
        have hb2 : t + p ≤ timeout + p := by linarith
        have hp2 : timeout < (t + p) + (n : ℚ) * p := by
          push_cast at hpast
          linarith
        obtain ⟨res, tf, h1, h2, h3⟩ := ih (t + p) hb2 hp2
        exact ⟨res, tf, by rw [hstep, h1], h2, h3⟩

/-- Claim C7 amended: for every matcher, non-negative timeout and positive
poll interval, the wait terminates with a normal returned outcome (never an
exception) within `timeout + pollInterval`; when the device never appears
the outcome is `None`, returned at the first poll strictly past the
timeout — so the wait does exceed the bare timeout by up to one poll
interval. -/
theorem device_wait_bounded (found : ℚ → Option String) (timeout p : ℚ)
    (hp : 0 < p) (ht : 0 ≤ timeout) :
    ∃ res t, wait_for_block_device found timeout p = some (res, t)
      ∧ t ≤ timeout + p
      ∧ ((∀ q, found q = none) → res = none ∧ timeout < t) := by
  have hnn : 0 ≤ ⌊timeout / p⌋ := Int.floor_nonneg.mpr (div_nonneg ht hp.le)
  have h1 : timeout / p < (⌊timeout / p⌋ : ℚ) + 1 := Int.lt_floor_add_one _
  have h2 : timeout < ((⌊timeout / p⌋ : ℚ) + 1) * p := by
    rw [div_lt_iff₀ hp] at h1
    linarith
  have hcast : ((⌊timeout / p⌋.toNat : ℚ)) = ((⌊timeout / p⌋ : ℤ) : ℚ) := by
    exact_mod_cast Int.toNat_of_nonneg hnn
  have hpast : timeout < 0 + (((⌊timeout / p⌋).toNat + 1 : Nat) : ℚ) * p := by
    push_cast
    rw [hcast]
    linarith
  obtain ⟨res, tf, hloop, hb, hnone⟩ := waitLoop_reaches found timeout p
    ((⌊timeout / p⌋).toNat + 1) 0 (by linarith) hpast
  refine ⟨res, tf, ?_, hb, hnone⟩
  have hfuel : waitFuel timeout p = ((⌊timeout / p⌋).toNat + 1) + 1 := by
    simp [waitFuel]
  rw [wait_for_block_device, hfuel]
  exact hloop

/-- Witness for the amended C7 at timeout 2, poll interval 1 and a device
that never appears. -/
theorem device_wait_bounded_witness :
    ∃ res t, wait_for_block_device (fun _ => none) 2 1 = some (res, t)
      ∧ t ≤ 2 + 1
      ∧ ((∀ _x : ℚ, (none : Option String) = none) → res = none ∧ 2 < t) :=
  device_wait_bounded (fun _ => none) 2 1 (by norm_num) (by norm_num)
